import Mathlib

/-!
# A verification development for the TradeApp shift-trading engine (`app.py`)

This file gives a shallow embedding of the core logic of `app.py` — the
eligibility classifier, the schedule builder, the availability / rest-rule /
weekly-cap evaluators, the swap simulator and the candidate search — and proves
(or refutes) the behavioural claims made about it.

Modelling conventions:

* Instants are modelled as `Int` minutes counted from an epoch chosen at a
  Monday 00:00 of the operative timezone (`America/New_York` in the code).
  All datetimes in the program are normalized (`to_eastern`/`round_to_minute`)
  to minute precision in that single timezone, so a single integer axis is
  faithful; this model uses one fixed UTC offset for the whole axis (a DST
  transition inside a schedule is not modelled).  With this epoch, Python's
  `dt.weekday()` is `(t / 1440) % 7` and `dt.replace(hour=0, ...)` is
  `t - t % 1440`; `/` and `%` on `Int` are floor division and its remainder
  for positive divisors, exactly like Python's `//` and `%`.
* Durations that the code turns into float hours (`total_seconds() / 3600.0`)
  are modelled as exact rationals (`minutes / 60 : ℚ`).
* `iso(dt)` produces an ISO-8601 string which, at a fixed offset, is
  order-isomorphic and injective in the instant; the embedding renders the
  instant with `toString` inside shift ids (only injectivity of the id is
  relevant), and keeps instants as `Int` where the code compares the strings.
* Python regexes of the classifier are embedded by a small executable matcher
  (`matchSeq`/`reSearch` below); each compiled pattern of `app.py` is
  transliterated token by token.
-/

/-! ## The regex matcher used by the eligibility classifier

`app.py` classifies titles with `re.compile(..., re.IGNORECASE).search`.  The
patterns only use: case-insensitive literals, character classes, `\s*`,
optional pieces (`[- ]?`, `e?`, `(ning)?`), and the word-boundary assertion
`\b`.  The embedding gives those constructs an executable semantics; pattern
chars are stored lower-case and input chars are lowered before comparison,
which is `re.IGNORECASE` for the ASCII titles involved. -/

/-- One token of a (compiled) regular expression, restricted to the constructs
used by the patterns in `app.py`. -/
inductive RE where
  /-- a case-insensitive literal character -/
  | lit (c : Char)
  /-- a character class `[...]`, case-insensitive -/
  | cls (s : List Char)
  /-- star of a class: zero or more characters of a class (used for `\s*`) -/
  | star (s : List Char)
  /-- an optional class character `[...]?` (used for `[- ]?`) -/
  | optCls (s : List Char)
  /-- an optional literal group `(abc)?` (used for `e?` and `(ning)?`) -/
  | optLits (l : List Char)
  /-- the word-boundary assertion `\b` -/
  | wb
deriving Repr, DecidableEq

/-- Python `\w` on ASCII: letters, digits and underscore. -/
def isWordChar (c : Char) : Bool := c.isAlphanum || c == '_'

/-- Case-insensitive membership in a character class (class given lower-case). -/
def inCls (s : List Char) (c : Char) : Bool := s.contains c.toLower

/-- the assertion `\b` holds at a position iff exactly one of the neighbouring characters is
a word character (a missing neighbour counts as a non-word character). -/
def boundary (prev next : Option Char) : Bool :=
  (match prev with | some c => isWordChar c | none => false)
    != (match next with | some c => isWordChar c | none => false)

/-- All states `(previous char, remaining input)` reachable by consuming zero
or more characters of class `s` from the front of the input (greedy `\s*` with
backtracking tries exactly these states). -/
def starStates (s : List Char) (prev : Option Char) : List Char → List (Option Char × List Char)
  | [] => [(prev, [])]
  | c :: cs =>
    (prev, c :: cs) :: (if inCls s c then starStates s (some c) cs else [])

/-- Consume the literal characters `l` (case-insensitively) from the front of
the input, returning the state after them, or `none` if they do not match. -/
def consumeLits : List Char → Option Char → List Char → Option (Option Char × List Char)
  | [], prev, cs => some (prev, cs)
  | _ :: _, _, [] => none
  | l :: ls, _, c :: cs => if c.toLower == l then consumeLits ls (some c) cs else none

/-- Match a token sequence against the front of the input (`re.match`-style,
the rest of the input may be anything); `prev` is the character just before
the current position, for `\b`. -/
def matchSeq : List RE → Option Char → List Char → Bool
  | [], _, _ => true
  | .lit l :: rest, _, cs =>
    match cs with
    | [] => false
    | c :: cs => c.toLower == l && matchSeq rest (some c) cs
  | .cls s :: rest, _, cs =>
    match cs with
    | [] => false
    | c :: cs => inCls s c && matchSeq rest (some c) cs
  | .star s :: rest, prev, cs =>
    (starStates s prev cs).any fun st => matchSeq rest st.1 st.2
  | .optCls s :: rest, prev, cs =>
    matchSeq rest prev cs
      || (match cs with
          | [] => false
          | c :: cs => inCls s c && matchSeq rest (some c) cs)
  | .optLits l :: rest, prev, cs =>
    matchSeq rest prev cs
      || (match consumeLits l prev cs with
          | some st => matchSeq rest st.1 st.2
          | none => false)
  | .wb :: rest, prev, cs => boundary prev cs.head? && matchSeq rest prev cs

/-- search semantics of a pattern: try a match at every position of the input. -/
def reSearch (rs : List RE) (prev : Option Char) : List Char → Bool
  | [] => matchSeq rs prev []
  | c :: cs => matchSeq rs prev (c :: cs) || reSearch rs (some c) cs

/-- the Boolean value of `rx.search(title)`. -/
def patSearch (rs : List RE) (t : String) : Bool := reSearch rs none t.toList

/-- A sequence of case-insensitive literal tokens. -/
def lits (s : String) : List RE := s.toList.map RE.lit

/-- the class `\s` (ASCII whitespace; the titles involved contain no exotic spaces). -/
def wsCls : List Char := [' ', '\t', '\n', '\r', '\x0b', '\x0c']

/-- the class `[- ]` -/
def dashSpace : List Char := ['-', ' ']

/-! ## Eligibility rules (`EXCLUDE_PATTERNS` / `ALLOW_PATTERNS` of `app.py`) -/

/-- the list `EXCLUDE_PATTERNS`: `trauma`, `ultrasound`, `\bUS\b`, `sick\s*call`,
all `re.IGNORECASE`. -/
def EXCLUDE_PATTERNS : List (List RE) :=
  [ lits "trauma",
    lits "ultrasound",
    [.wb] ++ lits "us" ++ [.wb],
    lits "sick" ++ [.star wsCls] ++ lits "call" ]

/-- the compiled `ALLOW_PATTERNS` of `app.py`, in order. -/
def ALLOW_REGEXES : List (List RE) :=
  [ -- \bday\s*[- ]?\s*([123])\b
    [.wb] ++ lits "day" ++ [.star wsCls, .optCls dashSpace, .star wsCls, .cls ['1','2','3'], .wb],
    -- \bd([123])\b
    [.wb, .lit 'd', .cls ['1','2','3'], .wb],
    -- \beve?(ning)?\s*[- ]?\s*([123])\b
    [.wb] ++ lits "ev" ++ [.optLits ['e'], .optLits ['n','i','n','g'],
      .star wsCls, .optCls dashSpace, .star wsCls, .cls ['1','2','3'], .wb],
    -- \be([123])\b
    [.wb, .lit 'e', .cls ['1','2','3'], .wb],
    -- \bnight\s*[- ]?\s*([123])\b
    [.wb] ++ lits "night" ++ [.star wsCls, .optCls dashSpace, .star wsCls, .cls ['1','2','3'], .wb],
    -- \bn([123])\b
    [.wb, .lit 'n', .cls ['1','2','3'], .wb],
    -- \bpod\s*[- ]?\s*a\s*[- ]?\s*([12])\b
    [.wb] ++ lits "pod" ++ [.star wsCls, .optCls dashSpace, .star wsCls, .lit 'a',
      .star wsCls, .optCls dashSpace, .star wsCls, .cls ['1','2'], .wb],
    -- \bpod\s*[- ]?\s*b\s*[- ]?\s*([12])\b
    [.wb] ++ lits "pod" ++ [.star wsCls, .optCls dashSpace, .star wsCls, .lit 'b',
      .star wsCls, .optCls dashSpace, .star wsCls, .cls ['1','2'], .wb],
    -- \bpoda\s*[- ]?\s*([12])\b
    [.wb] ++ lits "poda" ++ [.star wsCls, .optCls dashSpace, .star wsCls, .cls ['1','2'], .wb],
    -- \bpodb\s*[- ]?\s*([12])\b
    [.wb] ++ lits "podb" ++ [.star wsCls, .optCls dashSpace, .star wsCls, .cls ['1','2'], .wb],
    -- \bside\b
    [.wb] ++ lits "side" ++ [.wb],
    -- \b([abc])\s*([12])\b
    [.wb, .cls ['a','b','c'], .star wsCls, .cls ['1','2'], .wb] ]

/-- the classifier `is_eligible_title` of `app.py`: falsy (empty) titles are ineligible, any
exclude-pattern match wins, otherwise some allow pattern must match. -/
def is_eligible_title (title : String) : Bool :=
  if title.isEmpty then false
  else if EXCLUDE_PATTERNS.any (fun pat => patSearch pat title) then false
  else ALLOW_REGEXES.any (fun rx => patSearch rx title)

/-! ## Data model: shifts -/

/-- One shift record, exactly the dict built by `normalize_shifts`:
`{ id, person, title, start, end, eligible }`.  Instants are minutes from the
Monday-00:00 epoch (see the module comment). -/
structure Shift where
  id : String
  person : String
  title : String
  start : Int
  «end» : Int
  eligible : Bool
deriving Repr, DecidableEq, BEq

/-- the id string `f'{person}|{iso(start)}|{iso(end)}|{title}'` (the injective
rendering `iso` of an instant is modelled by `toString` of the minute count). -/
def shiftId (person : String) (start stop : Int) (title : String) : String :=
  person ++ "|" ++ toString start ++ "|" ++ toString stop ++ "|" ++ title

/-- the stable sort `list.sort(key=lambda x: x["start"])` (Python's sort is
stable; `List.insertionSort` with a non-strict key order is also stable). -/
def sortStart (l : List Shift) : List Shift :=
  List.insertionSort (fun a b => a.start ≤ b.start) l

/-! ## Schedule builder (`normalize_shifts`) -/

/-- A decoded `VEVENT`, after `to_eastern` normalization of both instants:
`comp.decoded("dtstart")`, `comp.decoded("dtend")` and `str(comp.get("summary"))`. -/
structure RawEvent where
  dtstart : Int
  dtend : Int
  summary : String
deriving Repr, DecidableEq

/-- One entry of `calendars.json` together with the outcome of
`requests.get(...)`/`Calendar.from_ical(...)` for it: either the decoded
`VEVENT` list or a fetch/parse failure (`raise_for_status` or a parser error). -/
structure CalSource where
  name : String
  fetched : Except Unit (List RawEvent)

/-- the per-calendar body of the `normalize_shifts` loop: drop events with
`end <= start`, drop events with `start < start_cutoff`, classify the title,
build the shift dict. -/
def shiftsOfCal (start_cutoff : Int) (name : String) (events : List RawEvent) : List Shift :=
  events.filterMap fun ev =>
    if ev.dtend ≤ ev.dtstart then none
    else if ev.dtstart < start_cutoff then none
    else some
      { id := shiftId name ev.dtstart ev.dtend ev.summary
        person := name
        title := ev.summary
        start := ev.dtstart
        «end» := ev.dtend
        eligible := is_eligible_title ev.summary }

/-- the `for cal in calendars` loop of `normalize_shifts`: collect names and
shifts source by source; a failed fetch/parse raises out of the whole loop
(there is no `try`/`except` in the code), modelled by `Except` propagation. -/
def collectFlat (start_cutoff : Int) : List CalSource → Except Unit (List String × List Shift)
  | [] => .ok ([], [])
  | cal :: rest =>
    match cal.fetched with
    | .error e => .error e
    | .ok events =>
      match collectFlat start_cutoff rest with
      | .error e => .error e
      | .ok (names, flat) => .ok (cal.name :: names, shiftsOfCal start_cutoff cal.name events ++ flat)

/-- the triple returned by `normalize_shifts`. -/
structure BuildResult where
  people : List String
  flat : List Shift
  schedules : String → List Shift

/-- grouping of `flat` into the per-person `schedules` dict and the per-person
sort (`defaultdict` grouping preserves `flat` order, so it is the order-
preserving `filter`, then the stable sort by `start`). -/
def schedulesOf (flat : List Shift) : String → List Shift :=
  fun p => sortStart (flat.filter (fun s => s.person == p))

/-- `normalize_shifts(start_cutoff)`:  builds `(people, flat, schedules)`, or
propagates the exception of the first calendar source that fails to fetch or
parse.  `people = sorted(set(names))`. -/
def normalize_shifts (start_cutoff : Int) (calendars : List CalSource) :
    Except Unit BuildResult :=
  match collectFlat start_cutoff calendars with
  | .error e => .error e
  | .ok (names, flat) =>
    .ok { people := List.insertionSort (fun a b : String => a ≤ b) names.dedup
          flat := flat
          schedules := schedulesOf flat }

/-! ## Interval and rules -/

/-- `intervals_overlap`: half-open interval overlap test. -/
def intervals_overlap (a_start a_end b_start b_end : Int) : Bool :=
  a_start < b_end && b_start < a_end

/-- `is_free_for_interval`: no shift of the schedule, other than the one with
`exclude_id`, overlaps the interval (Python's `if exclude_id and ...` treats
`None` and the empty string as no exclusion). -/
def is_free_for_interval (person_shifts : List Shift) (interval_start interval_end : Int)
    (exclude_id : Option String) : Bool :=
  person_shifts.all fun s =>
    if (match exclude_id with
        | some e => !e.isEmpty && s.id == e
        | none => false) then
      true
    else !intervals_overlap s.start s.«end» interval_start interval_end

/-- `local_break_ok`: the localized rest rule around `sorted_shifts[idx]`.
The code raises `IndexError` for an out-of-range `idx`; all call sites pass an
in-range index, and the out-of-range branch here returns `true` vacuously. -/
def local_break_ok (sorted_shifts : List Shift) (idx : Nat) : Bool :=
  match sorted_shifts.get? idx with
  | none => true
  | some cur =>
    (match (if 0 < idx then sorted_shifts.get? (idx - 1) else none) with
      | none => true
      | some prev => !(cur.start - prev.«end» < prev.«end» - prev.start)) &&
    (match sorted_shifts.get? (idx + 1) with
      | none => true
      | some nxt => !(nxt.start - cur.«end» < cur.«end» - cur.start))

/-- the inner `clone_for` of `simulate_swap_ok`: re-own a shift and recompute
its id under the new owner. -/
def clone_for (new_person : String) (s : Shift) : Shift :=
  { s with person := new_person, id := shiftId new_person s.start s.«end» s.title }

/-- the inner `week_caps_ok` of `simulate_swap_ok`: Monday-anchored week of
the inserted shift's start, sum of the float hours of every shift starting in
it, compared against 60.0 (float hours are modelled as exact rationals). -/
def week_caps_ok (prime_sched : List Shift) (new_shift : Shift) : Bool :=
  let start := new_shift.start
  let weekday := (start / 1440) % 7
  let week_start := (start - 1440 * weekday) - (start - 1440 * weekday) % 1440
  let week_end := week_start + 10080
  let total : ℚ := prime_sched.foldl
    (fun acc s =>
      if week_start ≤ s.start ∧ s.start < week_end then
        acc + ((s.«end» - s.start : Int) : ℚ) / 60
      else acc)
    0
  total ≤ 60

/-- `simulate_swap_ok(schedules, trader_shift, tradee_shift)`: the fixed
check order of the swap simulator, short-circuiting with the code's exact
reason strings. -/
def simulate_swap_ok (schedules : String → List Shift) (trader_shift tradee_shift : Shift) :
    Bool × String :=
  if !(trader_shift.eligible && tradee_shift.eligible) then (false, "ineligible-title")
  else if trader_shift.person == tradee_shift.person then (false, "same-person")
  else
    let A := trader_shift.person
    let B := tradee_shift.person
    let sA := trader_shift
    let sB := tradee_shift
    let A_sched := schedules A
    let B_sched := schedules B
    if !is_free_for_interval B_sched sA.start sA.«end» (some sB.id) then
      (false, "B-not-free-for-A")
    else if !is_free_for_interval A_sched sB.start sB.«end» (some sA.id) then
      (false, "A-not-free-for-B")
    else
      let sB_for_A := clone_for A sB
      let sA_for_B := clone_for B sA
      let A_prime := sortStart ((A_sched.filter fun x => !(x.id == sA.id)) ++ [sB_for_A])
      let B_prime := sortStart ((B_sched.filter fun x => !(x.id == sB.id)) ++ [sA_for_B])
      let a_idx := A_prime.indexOf sB_for_A
      let b_idx := B_prime.indexOf sA_for_B
      if !local_break_ok A_prime a_idx then (false, "A-break-rule")
      else if !local_break_ok B_prime b_idx then (false, "B-break-rule")
      else if !week_caps_ok A_prime sB_for_A then (false, "A-weekly-cap")
      else if !week_caps_ok B_prime sA_for_B then (false, "B-weekly-cap")
      else (true, "ok")

/-- the category of a reason code, forgetting the A/B prefix (the categories
named by the spec: ineligible, same-person, not-free, break-rule, weekly-cap,
ok). -/
def reason_category (r : String) : String :=
  if r == "ineligible-title" then "ineligible"
  else if r == "same-person" then "same-person"
  else if r == "B-not-free-for-A" || r == "A-not-free-for-B" then "not-free"
  else if r == "A-break-rule" || r == "B-break-rule" then "break-rule"
  else if r == "A-weekly-cap" || r == "B-weekly-cap" then "weekly-cap"
  else "ok"

/-! ## Candidate search (`/trade-options`) -/

/-- the serialized form of a shift in responses (instants kept as the model's
`Int`; at a fixed offset the code's zoned ISO-8601 strings are
order-isomorphic and injective in the instant). -/
structure ShiftView where
  id : String
  person : String
  title : String
  start : Int
  «end» : Int
  eligible : Bool
deriving Repr, DecidableEq

/-- serialization of a shift dict for a JSON response. -/
def shiftView (s : Shift) : ShiftView :=
  { id := s.id, person := s.person, title := s.title,
    start := s.start, «end» := s.«end», eligible := s.eligible }

/-- one entry of the `candidates` array built by `trade_options` — exactly the
keys the code puts in the dict: `tradee_person`, `tradee_shift`, `reason`. -/
structure Candidate where
  tradee_person : String
  tradee_shift : ShiftView
  reason : String
deriving Repr, DecidableEq

/-- the sort key order of `candidates.sort(key=lambda c: (c["tradee_shift"]["start"],
c["tradee_person"]))`. -/
def candKeyLE (a b : Candidate) : Prop :=
  a.tradee_shift.start < b.tradee_shift.start ∨
    (a.tradee_shift.start = b.tradee_shift.start ∧ a.tradee_person ≤ b.tradee_person)

instance : DecidableRel candKeyLE := fun a b => by
  unfold candKeyLE; infer_instance

instance : IsTotal Candidate candKeyLE where
  total a b := by
    unfold candKeyLE
    rcases lt_trichotomy a.tradee_shift.start b.tradee_shift.start with h | h | h
    · exact Or.inl (Or.inl h)
    · rcases le_total a.tradee_person b.tradee_person with h2 | h2
      · exact Or.inl (Or.inr ⟨h, h2⟩)
      · exact Or.inr (Or.inr ⟨h.symm, h2⟩)
    · exact Or.inr (Or.inl h)

instance : IsTrans Candidate candKeyLE where
  trans a b c hab hbc := by
    unfold candKeyLE at *
    rcases hab with h1 | ⟨h1, h1p⟩ <;> rcases hbc with h2 | ⟨h2, h2p⟩
    · exact Or.inl (h1.trans h2)
    · exact Or.inl (h2 ▸ h1)
    · exact Or.inl (h1 ▸ h2)
    · exact Or.inr ⟨h1.trans h2, h1p.trans h2p⟩

/-- the JSON body returned by a successful `POST /trade-options`. -/
structure TradeOptionsResp where
  trader_shift : ShiftView
  candidates : List Candidate
deriving Repr, DecidableEq

/-- Python truthiness of an optional request string (`None` and `""` are falsy). -/
def strTruthy : Option String → Bool
  | none => false
  | some s => !s.isEmpty

/-- `trade_options` (`POST /trade-options`): resolve the trader shift by id
and owner among the future shifts, simulate a swap against every other
person's shift, keep the `ok` ones, sort by `(start, tradee_person)`.
Errors are the code's `(400, ...)` and `(404, ...)` JSON error responses. -/
def trade_options (flat : List Shift) (trader_person trader_shift_id : Option String) :
    Except (Nat × String) TradeOptionsResp :=
  if !strTruthy trader_person || !strTruthy trader_shift_id then
    .error (400, "missing trader_person or trader_shift_id")
  else
    let p := trader_person.getD ""
    let sid := trader_shift_id.getD ""
    match flat.find? (fun s => s.id == sid && s.person == p) with
    | none => .error (404, "trader_shift not found")
    | some trader_shift =>
      let schedules := schedulesOf flat
      let candidates := flat.filterMap fun sB =>
        if sB.person == p then none
        else if (simulate_swap_ok schedules trader_shift sB).1 then
          some { tradee_person := sB.person
                 tradee_shift := shiftView sB
                 reason := (simulate_swap_ok schedules trader_shift sB).2 }
        else none
      .ok { trader_shift := shiftView trader_shift
            candidates := List.insertionSort candKeyLE candidates }

/-! ## Definitions taken from the spec's words (for comparison with the code)

The two definitions below follow the specification text, not `app.py`:
`mondayFloor` restates §4.6's description of the week window, and
`isInLongOffRun` models §4.7's Off-Run Advisory Detector, which has no
implementation anywhere in the source. -/

/-- Modelled from the spec: "the 7-day span beginning at the most recent
Monday 00:00 (operative timezone) at or before that start" — with the model's
Monday-00:00 epoch, the largest multiple of `10080` minutes at or before `t`. -/
def mondayFloor (t : Int) : Int := 10080 * (t / 10080)

/-- the calendar date (day number since the epoch) of an instant. -/
def dateOf (t : Int) : Int := t / 1440

/-- Modelled from the spec: the backward walk of §4.7 — the number of
consecutive dates strictly before the probe date absent from `startDates`,
stopping at a start date or after `guard` steps. -/
def offRunBack (startDates : List Int) : Int → Nat → Nat
  | _, 0 => 0
  | d, g + 1 => if startDates.contains d then 0 else 1 + offRunBack startDates (d - 1) g

/-- Modelled from the spec: the forward walk of §4.7, symmetric to
`offRunBack`. -/
def offRunFwd (startDates : List Int) : Int → Nat → Nat
  | _, 0 => 0
  | d, g + 1 => if startDates.contains d then 0 else 1 + offRunFwd startDates (d + 1) g

/-- Modelled from the spec: `isInLongOffRun(schedule, dateToCheck, threshold=5,
lookbackGuard=12, lookaheadGuard=24)` of §4.7, absent from the source: a
start date is never inside an off-run; otherwise the maximal run of start-free
dates around the probe date (guarded walks) must reach the threshold. -/
def isInLongOffRun (schedule : List Shift) (dateToCheck : Int) : Bool :=
  let startDates := schedule.map fun s => dateOf s.start
  if startDates.contains dateToCheck then false
  else
    let back := offRunBack startDates (dateToCheck - 1) 12
    let fwd := offRunFwd startDates (dateToCheck + 1) 24
    5 ≤ back + 1 + fwd

/-- Modelled from the spec: the advisory pair §4.9 says each kept candidate
carries — `recipientOnOffRun` for the trader receiving the counter-party's
shift, `giverOnOffRun` for the counter-party receiving the trader's shift,
each probing that person's schedule at the received shift's start date. -/
def offRunAdvisory (flat : List Shift) (traderShift tradeeShift : Shift) : Bool × Bool :=
  (isInLongOffRun (schedulesOf flat traderShift.person) (dateOf tradeeShift.start),
   isInLongOffRun (schedulesOf flat tradeeShift.person) (dateOf traderShift.start))

/-! ## Concrete shifts and datasets used by witnesses and counterexamples

Times are minutes from the Monday-00:00 epoch: Monday 07:00 is `420`,
Wednesday 07:00 is `2 * 1440 + 420 = 3300`, and so on; all the example shifts
are 12 hours (`720` minutes) long. -/

/-- alice, Monday 07:00-19:00, an eligible title. -/
def aliceMon : Shift :=
  { id := shiftId "alice" 420 1140 "day 1", person := "alice", title := "day 1",
    start := 420, «end» := 1140, eligible := true }

/-- bob, Wednesday 07:00-19:00, an eligible title. -/
def bobWed : Shift :=
  { id := shiftId "bob" 3300 4020 "day 2", person := "bob", title := "day 2",
    start := 3300, «end» := 4020, eligible := true }

/-- alice, Thursday 07:00-19:00, an eligible title. -/
def aliceThu : Shift :=
  { id := shiftId "alice" 4740 5460 "day 3", person := "alice", title := "day 3",
    start := 4740, «end» := 5460, eligible := true }

/-- alice, Monday 07:00-19:00, an excluded (ineligible) title. -/
def aliceTrauma : Shift :=
  { id := shiftId "alice" 420 1140 "Trauma Day 1", person := "alice", title := "Trauma Day 1",
    start := 420, «end» := 1140, eligible := false }

/-- a two-person snapshot: one eligible shift each, far apart. -/
def flatTwo : List Shift := [aliceMon, bobWed]

/-- the same snapshot with one extra shift for alice on Thursday. -/
def flatThree : List Shift := [aliceMon, bobWed, aliceThu]

set_option maxRecDepth 8000

/-! ## Helper lemmas shared by the claims -/

/-- the tail of `simulate_swap_ok` after the two symmetric guards, as a
function of the six remaining check outcomes. -/
def simCore (c1 c2 br1 br2 w1 w2 : Bool) : Bool × String :=
  if !c1 then (false, "B-not-free-for-A")
  else if !c2 then (false, "A-not-free-for-B")
  else if !br1 then (false, "A-break-rule")
  else if !br2 then (false, "B-break-rule")
  else if !w1 then (false, "A-weekly-cap")
  else if !w2 then (false, "B-weekly-cap")
  else (true, "ok")

theorem simCore_symm (c1 c2 br1 br2 w1 w2 : Bool) :
    (simCore c1 c2 br1 br2 w1 w2).1 = (simCore c2 c1 br2 br1 w2 w1).1 ∧
    reason_category (simCore c1 c2 br1 br2 w1 w2).2
      = reason_category (simCore c2 c1 br2 br1 w2 w1).2 := by
  revert c1 c2 br1 br2 w1 w2; decide

theorem simCore_fst_true (c1 c2 br1 br2 w1 w2 : Bool)
    (h : (simCore c1 c2 br1 br2 w1 w2).1 = true) :
    simCore c1 c2 br1 br2 w1 w2 = (true, "ok") := by
  revert h; revert c1 c2 br1 br2 w1 w2; decide

/-- with both titles eligible and two distinct owners, `simulate_swap_ok` is
the six-check core applied to the two availability, two rest and two cap
outcomes. -/
theorem simulate_eq_core (schedules : String → List Shift) (a b : Shift)
    (h1 : (a.eligible && b.eligible) = true) (h2 : (a.person == b.person) = false) :
    simulate_swap_ok schedules a b =
      simCore
        (is_free_for_interval (schedules b.person) a.start a.«end» (some b.id))
        (is_free_for_interval (schedules a.person) b.start b.«end» (some a.id))
        (local_break_ok
          (sortStart ((List.filter (fun x => !(x.id == a.id)) (schedules a.person)) ++ [clone_for a.person b]))
          (List.indexOf (clone_for a.person b)
            (sortStart ((List.filter (fun x => !(x.id == a.id)) (schedules a.person)) ++ [clone_for a.person b]))))
        (local_break_ok
          (sortStart ((List.filter (fun x => !(x.id == b.id)) (schedules b.person)) ++ [clone_for b.person a]))
          (List.indexOf (clone_for b.person a)
            (sortStart ((List.filter (fun x => !(x.id == b.id)) (schedules b.person)) ++ [clone_for b.person a]))))
        (week_caps_ok
          (sortStart ((List.filter (fun x => !(x.id == a.id)) (schedules a.person)) ++ [clone_for a.person b]))
          (clone_for a.person b))
        (week_caps_ok
          (sortStart ((List.filter (fun x => !(x.id == b.id)) (schedules b.person)) ++ [clone_for b.person a]))
          (clone_for b.person a)) := by
  unfold simulate_swap_ok simCore
  rw [h1, h2]
  simp

/-- a simulation that reports `ok = true` reports the reason `"ok"`. -/
theorem simulate_fst_true (schedules : String → List Shift) (a b : Shift)
    (h : (simulate_swap_ok schedules a b).1 = true) :
    simulate_swap_ok schedules a b = (true, "ok") := by
  by_cases h1 : (a.eligible && b.eligible) = true
  · by_cases h2 : (a.person == b.person) = true
    · unfold simulate_swap_ok at h
      rw [h1, h2] at h
      simp at h
    · have h2' : (a.person == b.person) = false := by simp_all
      rw [simulate_eq_core schedules a b h1 h2'] at h ⊢
      exact simCore_fst_true _ _ _ _ _ _ h
  · have h1' : (a.eligible && b.eligible) = false := by simp_all
    unfold simulate_swap_ok at h
    rw [h1'] at h
    simp at h

/-- inversion of a successful `trade_options` call. -/
theorem trade_options_ok_inv (flat : List Shift) (tp ts : Option String)
    (resp : TradeOptionsResp) (h : trade_options flat tp ts = .ok resp) :
    ∃ tS, List.find? (fun s => s.id == ts.getD "" && s.person == tp.getD "") flat = some tS ∧
      resp.trader_shift = shiftView tS ∧
      resp.candidates = List.insertionSort candKeyLE (flat.filterMap fun sB =>
        if sB.person == tp.getD "" then none
        else if (simulate_swap_ok (schedulesOf flat) tS sB).1 then
          some { tradee_person := sB.person, tradee_shift := shiftView sB,
                 reason := (simulate_swap_ok (schedulesOf flat) tS sB).2 }
        else none) := by
  simp only [trade_options] at h
  split at h
  · exact absurd h (by simp)
  · split at h
    · exact absurd h (by simp)
    · rename_i tS hfind
      refine ⟨tS, hfind, ?_, ?_⟩ <;> cases h <;> rfl

instance : IsTotal Shift (fun a b => a.start ≤ b.start) :=
  ⟨fun a b => le_total a.start b.start⟩

instance : IsTrans Shift (fun a b => a.start ≤ b.start) :=
  ⟨fun _ _ _ hab hbc => le_trans hab hbc⟩

theorem sortStart_sorted (l : List Shift) :
    (sortStart l).Pairwise fun a b => a.start ≤ b.start := by
  have h := List.sorted_insertionSort (fun a b : Shift => a.start ≤ b.start) l
  simpa [sortStart, List.Sorted] using h

theorem collectFlat_error_iff (c : Int) (cals : List CalSource) :
    collectFlat c cals = .error () ↔ ∃ cal ∈ cals, cal.fetched = .error () := by
  induction cals with
  | nil => simp [collectFlat]
  | cons cal rest ih =>
    simp only [collectFlat]
    cases hf : cal.fetched with
    | error e => cases e; simp [hf]
    | ok evs =>
      cases hr : collectFlat c rest with
      | error e => cases e; simp [hf, hr, ← ih]
      | ok pr => simp [hf, hr, ← ih]

theorem collectFlat_flat_mem (c : Int) :
    ∀ (cals : List CalSource) (names : List String) (flat : List Shift),
      collectFlat c cals = .ok (names, flat) →
      ∀ s ∈ flat, c ≤ s.start ∧ s.start < s.«end» := by
  intro cals
  induction cals with
  | nil =>
    intro names flat h s hs
    simp [collectFlat] at h
    obtain ⟨rfl, rfl⟩ := h
    simp at hs
  | cons cal rest ih =>
    intro names flat h s hs
    simp only [collectFlat] at h
    cases hf : cal.fetched with
    | error e => rw [hf] at h; exact absurd h (by simp)
    | ok evs =>
      rw [hf] at h
      cases hr : collectFlat c rest with
      | error e => rw [hr] at h; exact absurd h (by simp)
      | ok pr =>
        rw [hr] at h
        cases h
        rcases List.mem_append.1 hs with hmem | hmem
        · rcases List.mem_filterMap.1 hmem with ⟨ev, _, hev⟩
          by_cases h1 : ev.dtend ≤ ev.dtstart
          · simp [shiftsOfCal, h1] at hev
          · by_cases h2 : ev.dtstart < c
            · simp [shiftsOfCal, h1, h2] at hev
            · simp [shiftsOfCal, h1, h2] at hev
              rw [← hev]
              constructor <;> simp <;> omega
        · exact ih pr.1 pr.2 hr s hmem

theorem foldl_if_add (P : Shift → Prop) [DecidablePred P] (f : Shift → ℚ) :
    ∀ (l : List Shift) (a : ℚ),
      l.foldl (fun acc s => if P s then acc + f s else acc) a
        = a + ((l.filter fun s => decide (P s)).map f).sum := by
  intro l
  induction l with
  | nil => intro a; simp
  | cons x xs ih =>
    intro a
    by_cases hx : P x
    · simp [hx, ih, add_assoc]
    · simp [hx, ih]

/-- the code's `week_start` expression computes the Monday floor. -/
theorem mondayFloor_code (t : Int) :
    (t - 1440 * ((t / 1440) % 7)) - (t - 1440 * ((t / 1440) % 7)) % 1440 = mondayFloor t := by
  unfold mondayFloor; omega

/-- the Monday floor is the most recent Monday 00:00 at or before `t` (a
multiple of a week from the Monday-00:00 epoch, within a week below `t`). -/
theorem mondayFloor_is_monday (t : Int) :
    mondayFloor t % 10080 = 0 ∧ mondayFloor t ≤ t ∧ t < mondayFloor t + 10080 := by
  unfold mondayFloor; omega

theorem week_caps_ok_iff (prime_sched : List Shift) (new_shift : Shift) :
    week_caps_ok prime_sched new_shift = false ↔
      60 < ((prime_sched.filter fun s =>
              decide (mondayFloor new_shift.start ≤ s.start ∧
                      s.start < mondayFloor new_shift.start + 10080)).map
            (fun s => ((s.«end» - s.start : Int) : ℚ) / 60)).sum := by
  simp only [week_caps_ok]
  rw [show ((new_shift.start - 1440 * ((new_shift.start / 1440) % 7))
        - (new_shift.start - 1440 * ((new_shift.start / 1440) % 7)) % 1440) = mondayFloor new_shift.start
      from mondayFloor_code new_shift.start]
  rw [foldl_if_add (fun s => mondayFloor new_shift.start ≤ s.start ∧
        s.start < mondayFloor new_shift.start + 10080)
      (fun s => ((s.«end» - s.start : Int) : ℚ) / 60) prime_sched 0]
  simp [not_le]

/-! ## Concrete evaluations used by witnesses and counterexamples -/

/-- the response both example snapshots produce for alice's Monday shift. -/
def respTwo : TradeOptionsResp :=
  { trader_shift := shiftView aliceMon,
    candidates := [{ tradee_person := "bob", tradee_shift := shiftView bobWed, reason := "ok" }] }

theorem simTwo : simulate_swap_ok (schedulesOf [aliceMon, bobWed]) aliceMon bobWed = (true, "ok") := by
  with_unfolding_all decide

theorem simThree :
    simulate_swap_ok (schedulesOf [aliceMon, bobWed, aliceThu]) aliceMon bobWed = (true, "ok") := by
  with_unfolding_all decide

theorem trade_options_flatTwo :
    trade_options flatTwo (some "alice") (some aliceMon.id) = Except.ok respTwo := by
  have hfind : List.find? (fun s => s.id == aliceMon.id && s.person == "alice") flatTwo
      = some aliceMon := by decide
  simp only [trade_options, strTruthy]
  norm_num
  rw [if_neg (by decide), hfind]
  simp only [flatTwo, List.filterMap_cons, List.filterMap_nil]
  rw [if_pos (by decide : aliceMon.person = "alice")]
  rw [if_neg (by decide : ¬ (bobWed.person = "alice"))]
  rw [simTwo]
  norm_num [respTwo, List.insertionSort]
  try decide

theorem trade_options_flatThree :
    trade_options flatThree (some "alice") (some aliceMon.id) = Except.ok respTwo := by
  have hfind : List.find? (fun s => s.id == aliceMon.id && s.person == "alice") flatThree
      = some aliceMon := by decide
  simp only [trade_options, strTruthy]
  norm_num
  rw [if_neg (by decide), hfind]
  simp only [flatThree, List.filterMap_cons, List.filterMap_nil]
  rw [if_pos (by decide : aliceMon.person = "alice")]
  rw [if_neg (by decide : ¬ (bobWed.person = "alice"))]
  rw [if_pos (by decide : aliceThu.person = "alice")]
  rw [simThree]
  norm_num [respTwo, List.insertionSort]
  try decide

/-- a calendar source that fetches and parses fine. -/
def calGood : CalSource := ⟨"a", .ok [⟨720, 1440, "x"⟩]⟩

/-- a calendar source whose fetch/parse raises. -/
def calBad : CalSource := ⟨"b", .error ()⟩

/-- a calendar source with two retained events sharing a start instant. -/
def calDup : CalSource := ⟨"a", .ok [⟨720, 1440, "x"⟩, ⟨720, 1500, "y"⟩]⟩

def shiftX : Shift :=
  { id := shiftId "a" 720 1440 "x", person := "a", title := "x",
    start := 720, «end» := 1440, eligible := false }

def shiftY : Shift :=
  { id := shiftId "a" 720 1500 "y", person := "a", title := "y",
    start := 720, «end» := 1500, eligible := false }

/-- the build produced from `calDup` alone. -/
def buildDup : BuildResult :=
  { people := ["a"], flat := [shiftX, shiftY], schedules := schedulesOf [shiftX, shiftY] }

theorem normalize_shifts_calDup : normalize_shifts 0 [calDup] = Except.ok buildDup := rfl

/-! ## The claims -/

/-- C1 (counterexample): the claim says a calendar source that fails to fetch
or parse is skipped and the build still produces a partial result.  With one
good source and one failing source the build produces no result at all — the
exception propagates out of `normalize_shifts` (there is no `try`/`except`
around the fetch/parse at lines 105-107 of `app.py`). -/
theorem normalize_shifts_fails_on_bad_source :
    normalize_shifts 0 [calGood, calBad] = Except.error () ∧
    ¬ ∃ r, normalize_shifts 0 [calGood, calBad] = Except.ok r := by
  constructor
  · rfl
  · rintro ⟨r, hr⟩
    rw [show normalize_shifts 0 [calGood, calBad] = Except.error () from rfl] at hr
    exact absurd hr (by simp)

/-- C1 (amended): the build fails as a whole exactly when some calendar
source fails to fetch or parse; no partial result is ever produced for a
snapshot with a bad source. -/
theorem normalize_shifts_error_iff (c : Int) (cals : List CalSource) :
    normalize_shifts c cals = .error () ↔ ∃ cal ∈ cals, cal.fetched = .error () := by
  rw [← collectFlat_error_iff c cals]
  unfold normalize_shifts
  cases hc : collectFlat c cals with
  | error e => cases e; simp
  | ok pr => simp

/-- C3 (counterexample): the claim says `simulate(s, s)` always fails with
`same-person`; on a shift with an ineligible title the eligibility check
fires first and the reason is `ineligible-title`. -/
theorem simulate_self_swap_ineligible :
    simulate_swap_ok (fun _ => []) aliceTrauma aliceTrauma = (false, "ineligible-title") ∧
    ("ineligible-title" : String) ≠ "same-person" := by
  exact ⟨rfl, by decide⟩

/-- C3 (amended): for every *eligible* shift `s`, simulating a swap of `s`
with itself returns `ok = false` with reason `same-person`. -/
theorem simulate_self_swap_same_person (schedules : String → List Shift) (s : Shift)
    (h : s.eligible = true) :
    simulate_swap_ok schedules s s = (false, "same-person") := by
  unfold simulate_swap_ok
  rw [h]
  simp

/-- C3 (witness): the amended theorem at a concrete eligible shift. -/
theorem simulate_self_swap_same_person_witness :
    aliceMon.eligible = true ∧
    simulate_swap_ok (fun _ => []) aliceMon aliceMon = (false, "same-person") :=
  ⟨rfl, simulate_self_swap_same_person (fun _ => []) aliceMon rfl⟩

/-- C4: swapping the argument order of `simulate_swap_ok` yields the same
`ok` value and a reason of the same category (the A/B-prefixed codes swap
prefixes but stay in the same category). -/
theorem simulate_swap_symmetric (schedules : String → List Shift) (a b : Shift) :
    (simulate_swap_ok schedules a b).1 = (simulate_swap_ok schedules b a).1 ∧
    reason_category (simulate_swap_ok schedules a b).2
      = reason_category (simulate_swap_ok schedules b a).2 := by
  by_cases h1 : (a.eligible && b.eligible) = true
  · by_cases h2 : (a.person == b.person) = true
    · have h1b : (b.eligible && a.eligible) = true := by rw [Bool.and_comm]; exact h1
      have h2b : (b.person == a.person) = true := by
        rw [@BEq.comm String _ _ b.person a.person]; exact h2
      unfold simulate_swap_ok
      rw [h1, h2, h1b, h2b]
      simp
    · have h1b : (b.eligible && a.eligible) = true := by rw [Bool.and_comm]; exact h1
      have h2' : (a.person == b.person) = false := by simp_all
      have h2b : (b.person == a.person) = false := by
        rw [@BEq.comm String _ _ b.person a.person]; exact h2'
      rw [simulate_eq_core schedules a b h1 h2', simulate_eq_core schedules b a h1b h2b]
      exact simCore_symm _ _ _ _ _ _
  · have h1' : (a.eligible && b.eligible) = false := by simp_all
    have h1b : (b.eligible && a.eligible) = false := by rw [Bool.and_comm]; exact h1'
    unfold simulate_swap_ok
    rw [h1', h1b]
    simp

/-- C5: the weekly-cap check uses the 7-day window anchored at the most
recent Monday 00:00 at or before the inserted shift's start (`mondayFloor`,
stated and characterized here), sums fractional hours of every shift of the
post-swap schedule *starting* in the window, and rejects exactly when the sum
exceeds 60. -/
theorem week_caps_ok_spec (prime_sched : List Shift) (new_shift : Shift) :
    (mondayFloor new_shift.start % 10080 = 0 ∧
     mondayFloor new_shift.start ≤ new_shift.start ∧
     new_shift.start < mondayFloor new_shift.start + 10080) ∧
    (week_caps_ok prime_sched new_shift = false ↔
      60 < ((prime_sched.filter fun s =>
              decide (mondayFloor new_shift.start ≤ s.start ∧
                      s.start < mondayFloor new_shift.start + 10080)).map
            (fun s => ((s.«end» - s.start : Int) : ℚ) / 60)).sum) :=
  ⟨mondayFloor_is_monday new_shift.start, week_caps_ok_iff prime_sched new_shift⟩

/-- C6: the localized rest check passes iff the gap to an existing
predecessor is at least the predecessor's duration and the gap to an existing
successor is at least the inserted shift's own duration; a missing neighbour
satisfies its half vacuously. -/
theorem local_break_ok_iff (l : List Shift) (idx : Nat) (h : idx < l.length) :
    local_break_ok l idx = true ↔
      ((0 < idx → ∀ prev, l.get? (idx - 1) = some prev →
          prev.«end» - prev.start ≤ (l.get ⟨idx, h⟩).start - prev.«end») ∧
       (∀ nxt, l.get? (idx + 1) = some nxt →
          (l.get ⟨idx, h⟩).«end» - (l.get ⟨idx, h⟩).start ≤ nxt.start - (l.get ⟨idx, h⟩).«end»)) := by
  unfold local_break_ok
  rw [List.get?_eq_get h]
  by_cases hidx : 0 < idx
  · rw [if_pos hidx]
    cases hp : l.get? (idx - 1) with
    | none =>
      cases hn : l.get? (idx + 1) with
      | none => simp [hp, hn]
      | some nxt => simp [hp, hn]; try omega
    | some prev =>
      cases hn : l.get? (idx + 1) with
      | none => simp [hp, hn]; try omega
      | some nxt => simp [hp, hn]; try omega
  · rw [if_neg hidx]
    cases hn : l.get? (idx + 1) with
    | none => simp [hn, hidx]
    | some nxt => simp [hn, hidx]; try omega

/-- C6 (witness): the rest rule at index 0 of a two-shift schedule with a
2160-minute gap after a 720-minute shift. -/
theorem local_break_ok_iff_witness : local_break_ok [aliceMon, bobWed] 0 = true := by
  refine (local_break_ok_iff [aliceMon, bobWed] 0 (by simp)).mpr ⟨?_, ?_⟩
  · intro hlt
    exact absurd hlt (by simp)
  · intro nxt hn
    simp at hn
    rw [← hn]
    decide

/-- C2 (counterexample): the claim says every accepted candidate comes with
an Off-Run advisory (`recipientOnOffRun`/`giverOnOffRun`) computed by
`isInLongOffRun`.  The code computes no such thing: two snapshots that differ
in a way that flips the spec's advisory (alice gains a Thursday shift, ending
the long off-run around bob's Wednesday shift) produce *identical* responses
with an accepted candidate, so the response neither contains nor determines
the advisory. -/
theorem trade_options_no_offrun_advisory :
    trade_options flatTwo (some "alice") (some aliceMon.id) = Except.ok respTwo ∧
    trade_options flatThree (some "alice") (some aliceMon.id) = Except.ok respTwo ∧
    respTwo.candidates ≠ [] ∧
    offRunAdvisory flatTwo aliceMon bobWed ≠ offRunAdvisory flatThree aliceMon bobWed := by
  refine ⟨trade_options_flatTwo, trade_options_flatThree, by decide, by decide⟩

/-- C2 (amended): every candidate kept by the search corresponds to an
`ok = true` simulation against the resolved trader shift, and its record
carries exactly the counter-party's identity, the counter-party's shift view
and the reason `"ok"` — no advisory fields. -/
theorem trade_options_candidates_reason_ok (flat : List Shift) (tp ts : Option String)
    (resp : TradeOptionsResp) (h : trade_options flat tp ts = Except.ok resp) :
    ∀ cand ∈ resp.candidates, cand.reason = "ok" ∧
      ∃ tS sB, List.find? (fun s => s.id == ts.getD "" && s.person == tp.getD "") flat = some tS ∧
        sB ∈ flat ∧ (sB.person == tp.getD "") = false ∧
        simulate_swap_ok (schedulesOf flat) tS sB = (true, "ok") ∧
        cand = { tradee_person := sB.person, tradee_shift := shiftView sB, reason := "ok" } := by
  obtain ⟨tS, hfind, htr, hcands⟩ := trade_options_ok_inv flat tp ts resp h
  intro cand hc
  rw [hcands] at hc
  replace hc := (List.perm_insertionSort candKeyLE _).mem_iff.1 hc
  obtain ⟨sB, hsB, hf⟩ := List.mem_filterMap.1 hc
  by_cases hperson : (sB.person == tp.getD "") = true
  · rw [if_pos hperson] at hf
    exact absurd hf (by simp)
  · have hperson' : (sB.person == tp.getD "") = false := by simp_all
    rw [if_neg (by simp [hperson'])] at hf
    by_cases hok : (simulate_swap_ok (schedulesOf flat) tS sB).1 = true
    · have hsim := simulate_fst_true _ _ _ hok
      rw [if_pos hok, hsim] at hf
      have hcand : cand = ⟨sB.person, shiftView sB, "ok"⟩ := by
        cases hf
        rfl
      refine ⟨by rw [hcand], tS, sB, hfind, hsB, hperson', hsim, hcand⟩
    · rw [if_neg hok] at hf
      exact absurd hf (by simp)

/-- C2 (witness): the amended theorem at the concrete snapshot, for the one
accepted candidate. -/
theorem trade_options_candidates_reason_ok_witness :
    ({ tradee_person := "bob", tradee_shift := shiftView bobWed, reason := "ok" } : Candidate).reason
        = "ok" ∧
      ∃ tS sB, List.find?
          (fun s => s.id == (some aliceMon.id).getD "" && s.person == (some "alice").getD "") flatTwo
            = some tS ∧
        sB ∈ flatTwo ∧ (sB.person == (some "alice").getD "") = false ∧
        simulate_swap_ok (schedulesOf flatTwo) tS sB = (true, "ok") ∧
        ({ tradee_person := "bob", tradee_shift := shiftView bobWed, reason := "ok" } : Candidate)
          = { tradee_person := sB.person, tradee_shift := shiftView sB, reason := "ok" } :=
  trade_options_candidates_reason_ok flatTwo (some "alice") (some aliceMon.id) respTwo
    trade_options_flatTwo
    { tradee_person := "bob", tradee_shift := shiftView bobWed, reason := "ok" }
    (by simp [respTwo])

/-- C7: on a fixed snapshot the candidate list is sorted ascending by the
candidate shift's start, ties broken by the counter-party's identity
(`candKeyLE`), and a second call on the unchanged dataset returns the
identical value (the search is a pure function of the snapshot). -/
theorem trade_options_candidates_sorted (flat : List Shift) (tp ts : Option String)
    (resp : TradeOptionsResp) (h : trade_options flat tp ts = Except.ok resp) :
    resp.candidates.Pairwise candKeyLE ∧
      trade_options flat tp ts = trade_options flat tp ts := by
  obtain ⟨tS, hfind, htr, hcands⟩ := trade_options_ok_inv flat tp ts resp h
  refine ⟨?_, rfl⟩
  rw [hcands]
  have hs := List.sorted_insertionSort candKeyLE (flat.filterMap fun sB =>
    if sB.person == tp.getD "" then none
    else if (simulate_swap_ok (schedulesOf flat) tS sB).1 then
      some { tradee_person := sB.person, tradee_shift := shiftView sB,
             reason := (simulate_swap_ok (schedulesOf flat) tS sB).2 }
    else none)
  simpa [List.Sorted] using hs

/-- C7 (witness): the sortedness of the concrete snapshot's candidate list. -/
theorem trade_options_candidates_sorted_witness : respTwo.candidates.Pairwise candKeyLE :=
  (trade_options_candidates_sorted flatTwo (some "alice") (some aliceMon.id) respTwo
    trade_options_flatTwo).1

/-- C8: the classifier returns false on the empty title; any exclude-pattern
match forces false regardless of the allow patterns; otherwise the result is
exactly whether some allow pattern matches.  In particular "Trauma Day 1" is
rejected even though an allow pattern matches it. -/
theorem is_eligible_title_spec (t : String) :
    (is_eligible_title "" = false) ∧
    (EXCLUDE_PATTERNS.any (fun pat => patSearch pat t) = true → is_eligible_title t = false) ∧
    (t.isEmpty = false → EXCLUDE_PATTERNS.any (fun pat => patSearch pat t) = false →
      is_eligible_title t = ALLOW_REGEXES.any (fun rx => patSearch rx t)) ∧
    (is_eligible_title "Trauma Day 1" = false ∧
      ALLOW_REGEXES.any (fun rx => patSearch rx "Trauma Day 1") = true) := by
  refine ⟨rfl, ?_, ?_, by decide, by decide⟩
  · intro hex
    unfold is_eligible_title
    by_cases he : t.isEmpty
    · simp [he]
    · simp [he, hex]
  · intro he hex
    unfold is_eligible_title
    simp [he, hex]

/-- C8 (witness): the exclude clause of the theorem applied at the concrete
title "Trauma Day 1". -/
theorem is_eligible_title_spec_witness : is_eligible_title "Trauma Day 1" = false :=
  (is_eligible_title_spec "Trauma Day 1").2.1 (by decide)

/-- C9 (counterexample): the claim says a request referencing an ineligible
trader shift is rejected as a caller error; the code performs no eligibility
check on the trader shift — an owned, found but ineligible trader shift gets
a normal `200` response (with an empty candidate list), not an error. -/
theorem trade_options_accepts_ineligible_trader :
    aliceTrauma.eligible = false ∧
    trade_options [aliceTrauma] (some "alice") (some aliceTrauma.id)
      = Except.ok { trader_shift := shiftView aliceTrauma, candidates := [] } :=
  ⟨rfl, rfl⟩

/-- C9 (amended): the search rejects with a caller error exactly the requests
with a missing/empty trader identity or shift id, or whose shift id plus
stated owner do not resolve among the future shifts; eligibility of the
trader shift plays no part in the rejection. -/
theorem trade_options_error_iff (flat : List Shift) (tp ts : Option String) :
    (∃ e, trade_options flat tp ts = .error e) ↔
      (strTruthy tp = false ∨ strTruthy ts = false ∨
        ∀ s ∈ flat, ¬ (s.id = ts.getD "" ∧ s.person = tp.getD "")) := by
  simp only [trade_options]
  by_cases h1 : (!strTruthy tp || !strTruthy ts) = true
  · rw [if_pos h1]
    simp at h1
    constructor
    · intro _
      rcases h1 with h | h
      · exact Or.inl h
      · exact Or.inr (Or.inl h)
    · intro _; exact ⟨(400, "missing trader_person or trader_shift_id"), rfl⟩
  · rw [if_neg h1]
    simp at h1
    cases hfind : List.find? (fun s => s.id == ts.getD "" && s.person == tp.getD "") flat with
    | none =>
      simp only
      constructor
      · intro _
        refine Or.inr (Or.inr ?_)
        intro s hs hcon
        have := List.find?_eq_none.1 hfind s hs
        simp [hcon.1, hcon.2] at this
      · intro _; exact ⟨(404, "trader_shift not found"), rfl⟩
    | some tS =>
      simp only
      constructor
      · rintro ⟨e, he⟩; exact absurd he (by simp)
      · rintro (h | h | h)
        · rw [h1.1] at h; exact absurd h (by simp)
        · rw [h1.2] at h; exact absurd h (by simp)
        · have hmem := List.mem_of_find?_eq_some hfind
          have hp := List.find?_some hfind
          simp at hp
          exact absurd ⟨hp.1, hp.2⟩ (h tS hmem)

/-- C9 (witness): the amended theorem producing the concrete `404` on an
empty snapshot. -/
theorem trade_options_error_iff_witness :
    ∃ e, trade_options [] (some "alice") (some "x") = Except.error e :=
  (trade_options_error_iff [] (some "alice") (some "x")).mpr
    (Or.inr (Or.inr (by simp)))

/-- C10 (counterexample): the claim says each person's list is *strictly*
ascending by start; two retained events with the same start instant survive
the stable sort side by side, so the list is only non-strictly ascending. -/
theorem schedules_not_strictly_ascending :
    ∃ r, normalize_shifts 0 [calDup] = Except.ok r ∧
      ¬ ((r.schedules "a").Pairwise fun x y => x.start < y.start) := by
  refine ⟨buildDup, normalize_shifts_calDup, fun hp => ?_⟩
  have hp2 : ([shiftX, shiftY].Pairwise fun x y => x.start < y.start) := hp
  simp [shiftX, shiftY] at hp2

/-- C10 (amended): every retained shift satisfies `end > start` and
`start ≥ cutoff`, and each person's schedule is sorted ascending (not
necessarily strictly) by start. -/
theorem normalize_shifts_invariants (c : Int) (cals : List CalSource) (r : BuildResult)
    (h : normalize_shifts c cals = Except.ok r) :
    (∀ s ∈ r.flat, c ≤ s.start ∧ s.start < s.«end») ∧
    (∀ p, (r.schedules p).Pairwise fun x y => x.start ≤ y.start) := by
  unfold normalize_shifts at h
  cases hc : collectFlat c cals with
  | error e => rw [hc] at h; exact absurd h (by simp)
  | ok pr =>
    rw [hc] at h
    cases h
    constructor
    · exact collectFlat_flat_mem c cals pr.1 pr.2 (by rw [hc])
    · intro p
      exact sortStart_sorted _

/-- C10 (witness): the amended theorem at the concrete build. -/
theorem normalize_shifts_invariants_witness :
    (0 : Int) ≤ shiftX.start ∧ shiftX.start < shiftX.«end» :=
  (normalize_shifts_invariants 0 [calDup] buildDup normalize_shifts_calDup).1 shiftX
    (by simp [buildDup])
